import Mathlib

/-!
# Verification of the theme palette resolution engine

A shallow embedding of `src/micropad/theme.py` (the theme palette resolution
engine of the OmNote/MicroPad editor) together with theorems settling the
frozen claims about it.

Python strings are modelled as `List Char` (a Python `str` is a sequence of
code points; `len`, slicing, `strip`, `startswith`, `split`, `lower` are the
corresponding list operations).  Machine-level details that the claims do not
touch (Unicode whitespace beyond ASCII, float printing) are noted at the
definition that abstracts them.
-/

namespace ThemeSpec

/-- Coerce a Lean string literal to the Python-string model (`List Char`). -/
def S (s : String) : List Char := s.toList

/-- ASCII whitespace, as stripped by Python `str.strip()` (the source never
feeds non-ASCII whitespace to it). -/
def pySpace (c : Char) : Bool :=
  c = ' ' || c = '\t' || c = '\n' || c = '\r' || c = '\x0b' || c = '\x0c'

/-- Python `str.strip()`: drop leading and trailing whitespace. -/
def pyStrip (s : List Char) : List Char :=
  ((s.dropWhile pySpace).reverse.dropWhile pySpace).reverse

/-- Python `str.lstrip("#")`: drop every leading `#`. -/
def pyLstripHash (s : List Char) : List Char :=
  s.dropWhile (· = '#')

/-- Python `str.lower()` (ASCII). -/
def pyLower (s : List Char) : List Char :=
  s.map Char.toLower

/-- Python `str.startswith(p)`. -/
def pyStartsWith (p s : List Char) : Bool :=
  decide (p <+: s)

/-- Python `str.split(sep)` for a one-character separator. -/
def pySplitChar (sep : Char) (s : List Char) : List (List Char) :=
  match s with
  | [] => [[]]
  | c :: rest =>
    let r := pySplitChar sep rest
    if c = sep then [] :: r
    else
      match r with
      | [] => [[c]]
      | h :: t => (c :: h) :: t

/-- Python slice `s[i:j]` (for `0 ≤ i ≤ j`; out-of-range indices clamp). -/
def pySlice (i j : Nat) (s : List Char) : List Char :=
  (s.drop i).take (j - i)

/-- Body of `_norm_hex` after the `s = s.strip()` reassignment
(`theme.py` lines 52-62): shape checks on prefix and length only. -/
def normHexBody (s : List Char) : Option (List Char) :=
  if s = [] then none
  else if pyStartsWith (S "#") s && (s.length = 7 || s.length = 9) then
    some (s.take 7)
  else if pyStartsWith (S "0x") s && s.length = 8 then
    some ('#' :: s.drop 2)
  else if pyStartsWith (S "rgb:") s then
    let parts := pySplitChar '/' (s.drop 4)
    if parts.length = 3 && parts.all (fun p => p.length = 2) then
      some ('#' :: parts.foldr (· ++ ·) [])
    else none
  else none

/-- The `_norm_hex(s)` function (`theme.py` lines 48-62), on `Optional[str]`. -/
def normHex (s : Option (List Char)) : Option (List Char) :=
  match s with
  | none => none
  | some s => if s = [] then none else normHexBody (pyStrip s)


/-! ## Palette model

A palette is the dict returned by `_empty_palette()`: the five fixed keys
`bg, fg, sel_bg, sel_fg, caret`, each mapped to `None` or a string. -/

/-- The five palette keys of `_empty_palette()` (`theme.py` line 84). -/
inductive Field where
  | bg | fg | selBg | selFg | caret
  deriving DecidableEq, Repr

/-- All five palette keys. -/
def Field.all : List Field := [.bg, .fg, .selBg, .selFg, .caret]

/-- A palette dict: each of the five keys maps to `None` or a string. -/
def Pal : Type := Field → Option (List Char)

/-- The `_empty_palette()` dict (`theme.py` lines 83-84). -/
def emptyPalette : Pal := fun _ => none

/-- Python truthiness of an `Optional[str]` value: `None` and `""` are falsy. -/
def truthyOpt (v : Option (List Char)) : Bool :=
  match v with
  | none => false
  | some s => !s.isEmpty

/-- One key update of `_merge_pref`'s loop body
(`if out[k] is None and v: out[k] = v`, `theme.py` lines 411-413). -/
def mergeStep (out d : Pal) : Pal :=
  fun k => if (out k).isNone && truthyOpt (d k) then d k else out k

/-- The `_merge_pref(*dicts)` merge (`theme.py` lines 408-414): start from the empty
palette and fill each still-`None` key from the sources in order. -/
def mergePref (ds : List Pal) : Pal :=
  List.foldl mergeStep emptyPalette ds

/-- Spec-side definition, for comparison with `mergePref`: the value of the
first source in order whose field is set (non-null). -/
def firstSetField (ds : List Pal) (k : Field) : Option (List Char) :=
  List.findSome? (fun d => d k) ds

/-! ## Python value trees and the structured Alacritty parser

`_parse_alacritty` feeds the result of `tomllib.loads` / `yaml.safe_load`
(external deserializers, caught by `try/except` on lines 193-203) through
dynamically-typed dict lookups.  The deserializer output is modelled as an
explicit value tree `PyVal`; the lookup code runs in an exception monad
(`Except` with the Python exception class name as the error). -/

/-- A deserialized config tree: the duck-typed values `_parse_alacritty`
traverses (dict keys are strings; duplicate keys do not arise in TOML/YAML
output). -/
inductive PyVal where
  | null
  | bool (b : Bool)
  | int (n : Int)
  | str (s : List Char)
  | list (xs : List PyVal)
  | dict (kvs : List (String × PyVal))

/-- Python truthiness of a value tree. -/
def pyTruthy : PyVal → Bool
  | .null => false
  | .bool b => b
  | .int n => n ≠ 0
  | .str s => s ≠ []
  | .list xs => !xs.isEmpty
  | .dict kvs => !kvs.isEmpty

/-- Python `a or b` (value-level, on already-evaluated operands). -/
def pyOr (a b : PyVal) : PyVal :=
  if pyTruthy a then a else b

/-- Python `d.get(k)` on an actual dict: the value, or `None` when absent. -/
def dictGet (kvs : List (String × PyVal)) (k : String) : PyVal :=
  ((kvs.find? (fun kv => kv.1 = k)).map (fun kv => kv.2)).getD .null

/-- Python `v.get(k)` on an arbitrary value: raises `AttributeError` unless `v` is a
dict. -/
def pyGet (v : PyVal) (k : String) : Except (List Char) PyVal :=
  match v with
  | .dict kvs => .ok (dictGet kvs k)
  | _ => .error (S "AttributeError")

/-- Hex digit value (`int(_, 16)` digit semantics), on the code point:
48-57 are `0`-`9`, 97-102 are `a`-`f`, 65-70 are `A`-`F`. -/
def hexDigitVal (c : Char) : Option Nat :=
  let n := c.toNat
  if 48 ≤ n ∧ n ≤ 57 then some (n - 48)
  else if 97 ≤ n ∧ n ≤ 102 then some (n - 87)
  else if 65 ≤ n ∧ n ≤ 70 then some (n - 55)
  else none

/-- Python `int(s, 16)` on a plain digit string: `none` models the
`ValueError` it raises on an empty or non-hex string. -/
def pyHexInt (s : List Char) : Option Nat :=
  if s = [] then none
  else s.foldl (fun acc c => do return (← acc) * 16 + (← hexDigitVal c)) (some 0)

/-- The inner `_rgb` of `_mix_color` (`theme.py` lines 66-70):
strip, drop leading `#`s, expand 3-char shorthand, parse the three
2-char slices.  `none` models the exception caught by `_mix_color`'s
`try`; non-strings raise at `.strip()`. -/
def rgbOfVal : PyVal → Option (Nat × Nat × Nat)
  | .str s =>
    let h := pyLstripHash (pyStrip s)
    let h := if h.length = 3 then h.flatMap (fun c => [c, c]) else h
    do
      let r ← pyHexInt (pySlice 0 2 h)
      let g ← pyHexInt (pySlice 2 4 h)
      let b ← pyHexInt (pySlice 4 6 h)
      return (r, g, b)
  | _ => none

/-- One mixed channel of `_mix_color` at its sole call-site ratio `t = 0.15`:
`_clamp(round(a*(1-t) + b*t))`.  The float `0.15` is modelled as the exact
rational `15/100` and Python's `round` as round-half-to-even; the float
differs from `3/20` by `< 2^-54`, which can only change a result whose exact
value sits on a `.5` boundary, and no theorem below evaluates such a value. -/
def mixChannel (a b : Nat) : Nat :=
  let v := a * 85 + b * 15
  let q := v / 100
  let r := v % 100
  let rounded := if r < 50 then q else if r > 50 then q + 1
    else if q % 2 = 0 then q else q + 1
  min 255 rounded

/-- Two lowercase hex digits (`f"{r:02x}"` for `r ≤ 255`). -/
def hex2 (n : Nat) : List Char :=
  [Nat.digitChar (n / 16 % 16), Nat.digitChar (n % 16)]

/-- The `_mix_color(hex_a, hex_b, 0.15)` function (`theme.py` lines 64-80): on any
parse failure of either endpoint, both fall back to `(30,30,30)` and
`(224,224,224)`. -/
def mixColor (a b : PyVal) : List Char :=
  let ep : (Nat × Nat × Nat) × (Nat × Nat × Nat) :=
    match rgbOfVal a, rgbOfVal b with
    | some x, some y => (x, y)
    | _, _ => ((30, 30, 30), (224, 224, 224))
  let av := ep.1
  let bv := ep.2
  '#' :: (hex2 (mixChannel av.1 bv.1) ++ hex2 (mixChannel av.2.1 bv.2.1) ++
    hex2 (mixChannel av.2.2 bv.2.2))


/-- The `_norm_hex` function applied to a duck-typed value (as `_parse_alacritty` does):
falsy values give `None`; truthy non-strings raise `AttributeError` at
`s.strip()`. -/
def pyNormHexVal (v : PyVal) : Except (List Char) (Option (List Char)) :=
  if pyTruthy v then
    match v with
    | .str s => .ok (normHex (some s))
    | _ => .error (S "AttributeError")
  else .ok none

/-- The raw string payload used by `_norm_hex(x) or x` fallbacks; the
non-string arm is unreachable at its uses (proved below: `pyNormHexVal`
raises on truthy non-strings and the fallback is only taken on truthy
values). -/
def pyStrOf : PyVal → List Char
  | .str s => s
  | _ => []

/-- Python `x or default` for the field expressions `bg or "#1e1e1e"` etc. -/
def pyOrStr (v : PyVal) (d : List Char) : PyVal :=
  pyOr v (.str d)

/-- The `_parse_alacritty` parser (`theme.py` lines 186-233) from the point where the
deserialized tree `data` is fixed (the file-existence check and the
`tomllib`/`yaml` calls on lines 188-203 are external; their failures are
caught there and leave `data = None`, modelled as the `none` input).
Returns `ok none` for a non-dict tree, an `AttributeError` when a traversed
section is a truthy non-mapping, and otherwise the fully-populated palette
dict built on lines 227-233. -/
def parseAlacrittyData (data : Option PyVal) : Except (List Char) (Option Pal) :=
  match data with
  | some (.dict kvs) => do
    let colors := pyOr (dictGet kvs "colors") (.dict [])
    let primary := pyOr (← pyGet colors "primary") (.dict [])
    let normal := pyOr (← pyGet colors "normal") (.dict [])
    let bright := pyOr (← pyGet colors "bright") (.dict [])
    let select := pyOr (← pyGet colors "selection") (.dict [])
    let bg ← pyGet primary "background"
    let fg ← pyGet primary "foreground"
    let selBg0 ← pyGet select "background"
    let selT ← pyGet select "text"
    let selFg0E : Except (List Char) PyVal :=
      if pyTruthy selT then pure selT else pyGet select "foreground"
    let selFg0 ← selFg0E
    let selBg := if pyTruthy selBg0 then selBg0
      else .str (mixColor (pyOrStr bg (S "#1e1e1e")) (pyOrStr fg (S "#e0e0e0")))
    let selFg := if pyTruthy selFg0 then selFg0 else pyOrStr fg (S "#e0e0e0")
    let w1 ← pyGet bright "white"
    let w2E : Except (List Char) PyVal :=
      if pyTruthy w1 then pure w1 else pyGet normal "white"
    let w2 ← w2E
    let caret := if pyTruthy w2 then w2 else pyOrStr fg (S "#e0e0e0")
    let bgN ← pyNormHexVal bg
    let fgN ← pyNormHexVal fg
    let selBgN ← pyNormHexVal selBg
    let selFgN ← pyNormHexVal selFg
    let caretN ← pyNormHexVal caret
    let bgV := bgN.getD (S "#1e1e1e")
    let fgV := fgN.getD (S "#e0e0e0")
    let selBgV := selBgN.getD (pyStrOf selBg)
    let selFgV := selFgN.getD (pyStrOf selFg)
    let caretV := caretN.getD (pyStrOf caret)
    return some (fun k => match k with
      | .bg => some bgV
      | .fg => some fgV
      | .selBg => some selBgV
      | .selFg => some selFgV
      | .caret => some caretV)
  | _ => .ok none


/-! ## Import-chain aggregation (`_collect_imports_text`)

The recursion of `theme.py` lines 235-282.  Two aspects are parameters of
the model: the file system (`fs`, with `none` for a missing path — `_read`
failures surface as the empty string and are covered by `some []`), and the
per-file import extraction `imp` (the `IMPORT_LINE_RE`/`DASHED_ITEM_RE`
scan, `glob` expansion and relative-path resolution of lines 254-278,
which turn the file's text into the ordered list of referenced absolute
paths).  The claims quantify over arbitrary import reference graphs, which
is exactly this parameter.  Paths are modelled as already-canonical strings
(`Path.resolve` on line 240 is the identity on them).  The Python `visited`
set argument is mutated in place and shared across sibling recursive calls;
the model threads it through and returns it alongside the text. -/

/-- Python `"\n".join(...)` on a list of string parts. -/
def pyJoinNL : List (List Char) → List Char
  | [] => []
  | [x] => x
  | x :: xs => x ++ '\n' :: pyJoinNL xs

/-- Python `"\n".join(filter(None, parts))` (`theme.py` line 282). -/
def joinNE (parts : List (List Char)) : List Char :=
  pyJoinNL (parts.filter (fun p => p ≠ []))

/-- The `for raw in paths` loop body of lines 274-279: run `f` (one
recursive collection) on each referenced path in order, threading the
mutated `visited` set, and gather the returned texts in order. -/
def goList (f : String → List String → List Char × List String) :
    List String → List String → List (List Char) × List String
  | [], vis => ([], vis)
  | p :: ps, vis =>
    let r := f p vis
    let rest := goList f ps r.2
    (r.1 :: rest.1, rest.2)

/-- The recursion of `_collect_imports_text`, indexed by the remaining
depth budget (`fuel = max_depth + 1 - depth`, so `fuel = 0` is exactly the
`depth > max_depth` cut-off of line 237).  Written with `Nat.rec` so that
concrete runs reduce definitionally. -/
def collectGo (imp : String → List String) (fs : String → Option (List Char)) :
    Nat → String → List String → List Char × List String :=
  Nat.rec
    (fun _ vis => ([], vis))
    (fun _ ih path vis =>
      if vis.contains path || (fs path).isNone then ([], vis)
      else
        let vis1 := path :: vis
        let txt := (fs path).getD []
        if txt = [] then ([], vis1)
        else
          let sub := goList ih (imp path) vis1
          (joinNE (sub.1 ++ [txt]), sub.2))

/-- The `_collect_imports_text(main_path, visited, depth, max_depth)` recursion
(`theme.py` lines 235-282); the second component is the visited set after
the call (mutated in place in the source). -/
def collectImportsText (imp : String → List String)
    (fs : String → Option (List Char)) (mainPath : String)
    (visited : List String) (depth maxDepth : Nat) : List Char × List String :=
  collectGo imp fs (maxDepth + 1 - depth) mainPath visited

/-! ## Regex-fallback palette extraction (`_palette_from_alacritty_text`)

`block_key` (lines 287-290) runs `re.search` with the `(?mis)` pattern
`^\s*(?:colors\.\s*)?{block}\s*[:=].*?^\s*{key}\s*[:=]\s*({HEX_RE})`.
`re.search` returns the leftmost match; with the lazy `.*?` this captures
the hex token on the first key line after the first block-header line that
is followed by any key line (later header lines are tried when an earlier
one has no key line after it).  The model is line-scoped: a `\s*` inside
the header or key clause never crosses a line boundary here (no config text
in the theorems splits a name from its `:`/`=` across lines). -/

/-- Leading `\s*` within a line. -/
def dropSpaces (s : List Char) : List Char :=
  s.dropWhile pySpace

/-- Case-insensitive literal-prefix test (the patterns carry `(?i)`). -/
def ciStartsWith (p s : List Char) : Bool :=
  pyStartsWith (pyLower p) (pyLower s)

/-- Strip a case-insensitive literal token, or fail. -/
def afterToken (tok : String) (s : List Char) : Option (List Char) :=
  if ciStartsWith (S tok) s then some (s.drop (S tok).length) else none

/-- The character class `[:=]`. -/
def isColonEq (c : Char) : Bool :=
  c = ':' || c = '='

/-- A hex digit (`[0-9a-fA-F]`). -/
def isHexDigitCh (c : Char) : Bool :=
  (hexDigitVal c).isSome

/-- The `HEX_RE` pattern (`theme.py` line 24) matched at the start of `s`: `#rrggbb`
(the 8-digit alternative is listed second and is never reached because
nothing follows the capture), `0xrrggbb`, or `rgb:rr/gg/bb`. -/
def hexTokenAt (s : List Char) : Option (List Char) :=
  match s with
  | '#' :: rest =>
    let d := rest.take 6
    if d.length = 6 && d.all isHexDigitCh then some ('#' :: d) else none
  | '0' :: 'x' :: rest =>
    let d := rest.take 6
    if d.length = 6 && d.all isHexDigitCh then some ('0' :: 'x' :: d) else none
  | 'r' :: 'g' :: 'b' :: ':' :: rest =>
    let a := rest.take 2
    let rest1 := rest.drop 2
    let b := (rest1.drop 1).take 2
    let rest2 := (rest1.drop 1).drop 2
    let c := (rest2.drop 1).take 2
    if a.length = 2 && a.all isHexDigitCh && rest1.take 1 = ['/'] &&
        b.length = 2 && b.all isHexDigitCh && rest2.take 1 = ['/'] &&
        c.length = 2 && c.all isHexDigitCh then
      some (S "rgb:" ++ a ++ '/' :: b ++ '/' :: c)
    else none
  | _ => none

/-- Pattern `{block}\s*[:=]` matched at a position (after its leading spaces). -/
def blockTokenAt (block : String) (s : List Char) : Bool :=
  match afterToken block s with
  | some rest =>
    match dropSpaces rest with
    | ch :: _ => isColonEq ch
    | [] => false
  | none => false

/-- A line matching `^\s*(?:colors\.\s*)?{block}\s*[:=]`. -/
def isBlockHeader (block : String) (line : List Char) : Bool :=
  let r := dropSpaces line
  blockTokenAt block r ||
    (match afterToken "colors." r with
     | some rest => blockTokenAt block (dropSpaces rest)
     | none => false)

/-- A line matching `^\s*{key}\s*[:=]\s*({HEX_RE})`, returning the capture. -/
def keyLineValue (key : String) (line : List Char) : Option (List Char) :=
  match afterToken key (dropSpaces line) with
  | some rest =>
    match dropSpaces rest with
    | ch :: r3 => if isColonEq ch then hexTokenAt (dropSpaces r3) else none
    | [] => none
  | none => none

/-- First key line among the given lines. -/
def findKeyValue (key : String) : List (List Char) → Option (List Char)
  | [] => none
  | l :: rest =>
    match keyLineValue key l with
    | some v => some v
    | none => findKeyValue key rest

/-- Leftmost match of the `block_key` pattern over the lines: the first
header line followed by a key line wins; the capture is the first key line
after it. -/
def matchBlockKey (block key : String) : List (List Char) → Option (List Char)
  | [] => none
  | l :: rest =>
    if isBlockHeader block l then
      match findKeyValue key rest with
      | some v => some v
      | none => matchBlockKey block key rest
    else matchBlockKey block key rest

/-- The `block_key(block, key)` helper of `_palette_from_alacritty_text`
(`theme.py` lines 287-290): leftmost pattern match, then `_norm_hex` on
the captured token. -/
def blockKey (block key : String) (txt : List Char) : Option (List Char) :=
  match matchBlockKey block key (pySplitChar '\n' txt) with
  | some tok => normHex (some tok)
  | none => none

/-- Python `a or b` on `Optional[str]` results. -/
def orOpt (a b : Option (List Char)) : Option (List Char) :=
  if truthyOpt a then a else b

/-- The `_palette_from_alacritty_text(txt)` extractor (`theme.py` lines 284-296). -/
def paletteFromAlacrittyText (txt : List Char) : Pal :=
  fun k =>
    match k with
    | .bg => blockKey "primary" "background" txt
    | .fg => blockKey "primary" "foreground" txt
    | .selBg => blockKey "selection" "background" txt
    | .selFg => orOpt (blockKey "selection" "text" txt)
        (blockKey "selection" "foreground" txt)
    | .caret => orOpt (blockKey "cursor" "cursor" txt)
        (blockKey "cursor" "text" txt)


/-! ## Line-oriented kitty / foot parsers (`theme.py` lines 299-321) -/

/-- First line whose scan `f` succeeds (the `(?m)` leftmost match). -/
def findLineValue (f : List Char → Option (List Char)) :
    List (List Char) → Option (List Char)
  | [] => none
  | l :: rest =>
    match f l with
    | some v => some v
    | none => findLineValue f rest

/-- A line matching `^\s*{k}\s+({HEX_RE})`, returning the capture. -/
def kittyLineValue (k : String) (line : List Char) : Option (List Char) :=
  match afterToken k (dropSpaces line) with
  | some rest =>
    match rest with
    | ch :: r2 => if pySpace ch then hexTokenAt (dropSpaces (ch :: r2)) else none
    | [] => none
  | none => none

/-- The `grab(k)` helper of `_palette_from_kitty_text` (`theme.py` lines 301-303). -/
def grabKitty (k : String) (txt : List Char) : Option (List Char) :=
  match findLineValue (kittyLineValue k) (pySplitChar '\n' txt) with
  | some tok => normHex (some tok)
  | none => none

/-- The `_palette_from_kitty_text(txt)` parser (`theme.py` lines 299-309). -/
def paletteFromKittyText (txt : List Char) : Pal :=
  fun k =>
    match k with
    | .bg => grabKitty "background" txt
    | .fg => grabKitty "foreground" txt
    | .caret => grabKitty "cursor" txt
    | .selBg => grabKitty "selection_background" txt
    | .selFg => grabKitty "selection_foreground" txt

/-- A line matching `^\s*{k}\s*=\s*({HEX_RE})`, returning the capture. -/
def footLineValue (k : String) (line : List Char) : Option (List Char) :=
  match afterToken k (dropSpaces line) with
  | some rest =>
    match dropSpaces rest with
    | '=' :: r2 => hexTokenAt (dropSpaces r2)
    | _ => none
  | none => none

/-- The `_palette_from_foot_text(txt)` parser (`theme.py` lines 311-321). -/
def paletteFromFootText (txt : List Char) : Pal :=
  fun k =>
    match k with
    | .bg => (grabFoot "background" txt)
    | .fg => grabFoot "foreground" txt
    | .caret => grabFoot "cursor" txt
    | .selBg => grabFoot "selection-background" txt
    | .selFg => grabFoot "selection-foreground" txt
where
  grabFoot (k : String) (txt : List Char) : Option (List Char) :=
    match findLineValue (footLineValue k) (pySplitChar '\n' txt) with
    | some tok => normHex (some tok)
    | none => none

/-! ## Stylesheet synthesis (`_css_from_palette`) -/

/-- Python `pal.get(k) or default` (string truthiness). -/
def palGetOr (pal : Pal) (k : Field) (d : List Char) : List Char :=
  match pal k with
  | some v => if v = [] then d else v
  | none => d

/-- The `_css_from_palette(pal, dark=…)` synthesizer (`theme.py` lines 86-136): the exact
line list, joined with newlines.  The float literals `0.06` / `0.12` of
line 94 appear only interpolated into the entry rule, and are modelled by
their printed forms.  Literal braces are the CSS rule braces. -/
def cssFromPalette (pal : Pal) (dark : Bool) : List Char :=
  let bg := palGetOr pal .bg (S "#1e1e1e")
  let fg := palGetOr pal .fg (S "#e0e0e0")
  let selbg := palGetOr pal .selBg (S "alpha(@term_fg,0.15)")
  let selfg := palGetOr pal .selFg (S "@term_fg")
  let caret := palGetOr pal .caret (S "@term_fg")
  let entryMix := if dark then S "0.06" else S "0.12"
  pyJoinNL [
    S "/* generated from palette */",
    S "@define-color term_bg " ++ bg ++ S ";",
    S "@define-color term_fg " ++ fg ++ S ";",
    S "@define-color term_sel_bg " ++ selbg ++ S ";",
    S "@define-color term_sel_fg " ++ selfg ++ S ";",
    S "@define-color term_caret " ++ caret ++ S ";",
    S "",
    S "window, .background, .view \x7b",
    S "  background-color: @term_bg;",
    S "  color: @term_fg;",
    S "\x7d",
    S "textview, textview > text \x7b",
    S "  background-color: @term_bg;",
    S "  color: @term_fg;",
    S "  caret-color: @term_caret;",
    S "\x7d",
    S "textview text selection \x7b",
    S "  background-color: @term_sel_bg;",
    S "  color: @term_sel_fg;",
    S "\x7d",
    S "headerbar, .titlebar \x7b",
    S "  background-color: @term_bg;",
    S "  color: @term_fg;",
    S "  border-bottom: 1px solid alpha(@term_fg, 0.08);",
    S "\x7d",
    S "entry, searchentry \x7b",
    S "  background-color: mix(@term_bg, @term_fg, " ++ entryMix ++ S ");",
    S "  color: @term_fg;",
    S "  border: 1px solid alpha(@term_fg, 0.15);",
    S "\x7d",
    S "entry:focus, searchentry:focus \x7b",
    S "  border-color: alpha(@term_fg, 0.28);",
    S "\x7d",
    S "entry selection, searchentry selection \x7b",
    S "  background-color: @term_sel_bg;",
    S "  color: @term_sel_fg;",
    S "\x7d"]

/-! ## Style application and the top-level entry point

`_apply_css` (lines 417-448) and `apply_best_theme` (lines 451-491).
The display is the process-global GTK display; its set of added providers
and the `_CURRENT_PROVIDER` module global form the state.  Fresh
`Gtk.CssProvider()` objects are modelled by a counter.  The file reads
performed by the source-locator functions and the provider operations are
recorded in an effect trace (`_from_omarchy_theme` / `_from_alacritty_config`
/ `_from_env` read files and the environment; their four palettes are inputs
of the model, and evaluating them is the `queriedSources` effect). -/

/-- What a provider was loaded from (`load_from_data` vs `load_from_path`). -/
inductive CssSource where
  | text (css : List Char)
  | path (p : String)
  deriving DecidableEq

/-- The display's provider set, the `_CURRENT_PROVIDER` global, and the
fresh-object counter. -/
structure DisplayState where
  installed : List (Nat × CssSource)
  current : Option Nat
  nextId : Nat
  deriving DecidableEq

/-- The state at process start: no provider installed. -/
def initialDisplay : DisplayState := ⟨[], none, 0⟩

/-- Observable side effects of one entry-point run. -/
inductive Effect where
  | removedProvider
  | installedProvider (src : CssSource)
  | queriedSources
  deriving DecidableEq

/-- The `_apply_css(css, path)` applier (`theme.py` lines 417-448): always remove the
previous provider first (the global is cleared even if the GTK removal
throws, line 429-434); with neither argument, stop there; otherwise install
a fresh provider from the text or the path and record it as current. -/
def applyCss (css : Option (List Char)) (path : Option String)
    (st : DisplayState) : DisplayState × List Effect :=
  let removed : DisplayState × List Effect :=
    match st.current with
    | some i =>
      ({ st with
          installed := st.installed.filter (fun pr => pr.1 ≠ i)
          current := none }, [Effect.removedProvider])
    | none => (st, [])
  let st1 := removed.1
  match css, path with
  | none, none => removed
  | _, _ =>
    let src : CssSource :=
      match css, path with
      | some c, _ => .text c
      | none, p => .path (p.getD "")
    ({ st1 with
        installed := st1.installed ++ [(st1.nextId, src)]
        current := some st1.nextId
        nextId := st1.nextId + 1 },
     removed.2 ++ [Effect.installedProvider src])

/-- The `_from_gtk_defaults()` source (`theme.py` lines 405-406): always empty. -/
def fromGtkDefaults : Pal := emptyPalette

/-- The fallback stylesheet path of line 484. -/
def userGtkCssPath : String := "~/.config/gtk-4.0/gtk.css"

/-- The inputs `apply_best_theme` reads from the environment, the file
system and the toolkit: the `MICROPAD_THEME_MODE` value (`""` when unset),
the three located source palettes, the dark flag, and whether the user
`gtk.css` fallback exists. -/
structure ThemeInputs where
  themeMode : List Char
  omarchyPal : Pal
  alacrittyPal : Pal
  envPal : Pal
  isDark : Bool
  gtkCssExists : Bool

/-- The `apply_best_theme()` entry point (`theme.py` lines 451-491): the `system` escape
hatch clears the provider and returns before any source is queried;
otherwise the four sources are merged, the palette is synthesized to CSS
(`merged` is always a dict, so `css_text` is always set) and applied, with
the `gtk.css` / clear fallbacks as written. -/
def applyBestTheme (I : ThemeInputs) (st : DisplayState) :
    DisplayState × List Effect :=
  if pyLower I.themeMode = S "system" then
    applyCss none none st
  else
    let merged := mergePref [I.omarchyPal, I.alacrittyPal, I.envPal, fromGtkDefaults]
    let cssText : Option (List Char) := some (cssFromPalette merged I.isDark)
    let applied :=
      if truthyOpt cssText then applyCss cssText none st
      else if I.gtkCssExists then applyCss none (some userGtkCssPath) st
      else applyCss none none st
    (applied.1, Effect.queriedSources :: applied.2)

/-! ## The debounce timers of `ThemeWatcher._on_changed`

`_on_changed` (`theme.py` lines 545-547) runs
`GLib.timeout_add(150, lambda: (apply_best_theme(), False)[1])`: it
schedules a *new* one-shot 150 ms timeout on every event — no timeout id
is stored and no pending timeout is ever cancelled.  The model keeps the
multiset of scheduled deadlines and counts `apply_best_theme` runs once the
main loop drains them (each callback returns `False`, so each fires exactly
once). -/

/-- Pending one-shot timeouts and the count of `apply_best_theme` runs. -/
structure TimerState where
  pending : List Nat
  applyRuns : Nat
  deriving DecidableEq, Repr

/-- The `ThemeWatcher._on_changed` handler at time `now`: add a fresh one-shot 150 ms timeout. -/
def onChanged (now : Nat) (st : TimerState) : TimerState :=
  { st with pending := st.pending ++ [now + 150] }

/-- The main loop after quiescence: every scheduled timeout fires its
callback exactly once. -/
def runPending (st : TimerState) : TimerState :=
  { pending := [], applyRuns := st.applyRuns + st.pending.length }

/-- Number of `apply_best_theme` runs produced by a burst of change events
at the given times, once the loop quiesces. -/
def burstRuns (events : List Nat) : Nat :=
  (runPending (events.foldl (fun st t => onChanged t st) ⟨[], 0⟩)).applyRuns

/-! ## Watcher lifecycle

Modelled from the spec: the watcher stop operation lives in
`src/omnote/theme.py`, which is not under `src/` — only its caller
`src/omnote/app.py` is (it imports and calls `stop_theme_watcher` during
`do_shutdown`, "so no monitors/timeouts hold the loop").  Per spec §4.8 and
§3: `start()` registers one dark/light listener and one monitor per
existing candidate path; `stop()` transitions running→stopped and tears the
whole registration set down as one unit, cancelling any pending debounce
timer; events only reach the watcher through a registered monitor or the
registered listener. -/

/-- Modelled from the spec: the watcher state of the missing
`omnote/theme.py` — the §4.8 two-state machine with its registration set
(§3) and the single-slot debounce timer (§5). -/
structure Watcher where
  running : Bool
  monitors : List String
  styleListener : Bool
  pendingTimer : Option Nat
  deriving DecidableEq, Repr

/-- Modelled from the spec: `start()` — register the dark/light listener
and one monitor per (existing) watch path. -/
def startWatcher (paths : List String) : Watcher :=
  ⟨true, paths, true, none⟩

/-- Modelled from the spec: `stop()` — running→stopped, tearing down every
monitor, the listener and any pending timer as one unit. -/
def stopWatcher (_w : Watcher) : Watcher :=
  ⟨false, [], false, none⟩

/-- Modelled from the spec: an external change event. -/
inductive WEvent where
  | fileChanged (p : String)
  | styleFlip

/-- Modelled from the spec: whether an event still reaches the watcher —
only through a registered monitor or the registered listener. -/
def deliverable (w : Watcher) : WEvent → Bool
  | .fileChanged p => w.running && w.monitors.contains p
  | .styleFlip => w.running && w.styleListener

/-- Modelled from the spec: event handling while running — a delivered
file event (re)arms the single debounce slot, a delivered style flip
re-applies; the returned flag says whether a re-application was
triggered/scheduled. -/
def onWatcherEvent (w : Watcher) (e : WEvent) (now : Nat) : Watcher × Bool :=
  if deliverable w e then
    match e with
    | .fileChanged _ => ({ w with pendingTimer := some (now + 150) }, true)
    | .styleFlip => (w, true)
  else (w, false)

/-- Claim C1's "in particular" scenario, source A: defines only
`background`. -/
def srcA : Pal :=
  fun k => match k with
  | .bg => some (S "#111111")
  | _ => none

/-- Claim C1's "in particular" scenario, source B: defines `background`
and `foreground`. -/
def srcB : Pal :=
  fun k => match k with
  | .bg => some (S "#222222")
  | .fg => some (S "#e0e0e0")
  | _ => none

/-- The provider invariant: the providers added to the display are exactly
the one recorded in `_CURRENT_PROVIDER` (none at startup). -/
def providersMatchCurrent (st : DisplayState) : Prop :=
  st.installed.map Prod.fst =
    (match st.current with
     | some i => [i]
     | none => [])

/-- Concrete inputs with no `system` override (everything else empty). -/
def inputsDefault : ThemeInputs :=
  ⟨S "", emptyPalette, emptyPalette, emptyPalette, false, false⟩

/-- Concrete inputs with `MICROPAD_THEME_MODE=system`. -/
def inputsSystem : ThemeInputs :=
  ⟨S "system", emptyPalette, emptyPalette, emptyPalette, false, false⟩

/-! Spec-side shape predicates describing what `_norm_hex` actually
accepts (the amended C5): prefix and length checks only — no hex-digit
character validation. -/

/-- Shape `#` + 6 or 8 further characters. -/
def shapeHash (t : List Char) : Bool :=
  pyStartsWith (S "#") t && (t.length = 7 || t.length = 9)

/-- Shape `0x` + 6 further characters. -/
def shape0x (t : List Char) : Bool :=
  pyStartsWith (S "0x") t && t.length = 8

/-- Shape `rgb:` + three `/`-separated 2-character groups. -/
def shapeRgb (t : List Char) : Bool :=
  pyStartsWith (S "rgb:") t &&
    (let parts := pySplitChar '/' (t.drop 4)
     parts.length = 3 && parts.all (fun p => p.length = 2))

/-- The spec's §8 scenario config tree: `primary.background = #101010`,
`primary.foreground = #eeeeee`, no selection block (as deserialized from
the structured config). -/
def alaScenarioTree : PyVal :=
  .dict [("colors", .dict [("primary", .dict
    [("background", .str (S "#101010")), ("foreground", .str (S "#eeeeee"))])])]

/-- The palette `_parse_alacritty` produces for `alaScenarioTree`:
selection background synthesized as `mix(#101010, #eeeeee, 0.15)`,
selection foreground and caret falling back to the foreground. -/
def alaScenarioPal : Pal :=
  fun k =>
    match k with
    | .bg => some (S "#101010")
    | .fg => some (S "#eeeeee")
    | .selBg => some (S "#313131")
    | .selFg => some (S "#eeeeee")
    | .caret => some (S "#eeeeee")

/-- A self-referencing import graph: `a` imports itself. -/
def loopImp : String → List String := fun _ => ["a"]

/-- File system for the self-loop: only `a` exists. -/
def loopFs : String → Option (List Char) :=
  fun p => if p = "a" then some (S "x") else none

/-- A diamond import graph: `r` imports `b` and `c`, both importing the
shared `d`. -/
def diamondImp : String → List String :=
  fun p =>
    if p = "r" then ["b", "c"]
    else if p = "b" then ["d"]
    else if p = "c" then ["d"]
    else []

/-- File system for the diamond. -/
def diamondFs : String → Option (List Char) :=
  fun p =>
    if p = "r" then some (S "R")
    else if p = "b" then some (S "B")
    else if p = "c" then some (S "C")
    else if p = "d" then some (S "D")
    else none

/-- Imported-file text for the C8 scenario: defines
`primary.background = #111111`. -/
def impText : List Char :=
  S "colors:\n  primary:\n    background: #111111"

/-- Root-file text for the C8 scenario: an import directive plus
`primary.background = #222222`. -/
def rootText : List Char :=
  S "imports:\n  - theme.yml\ncolors:\n  primary:\n    background: #222222"

/-- The C8 scenario import graph: the root references one imported file. -/
def chainImp : String → List String :=
  fun p => if p = "root" then ["imp"] else []

/-- The C8 scenario file system. -/
def chainFs : String → Option (List Char) :=
  fun p =>
    if p = "root" then some rootText
    else if p = "imp" then some impText
    else none

/-! ## Theorems -/

theorem mergeStep_of_set (out d : Pal) (k : Field) (h : out k ≠ none) :
    mergeStep out d k = out k := by
  unfold mergeStep
  cases hh : out k with
  | none => exact absurd hh h
  | some v => simp [hh]

theorem foldl_mergeStep_of_set (ds : List Pal) :
    ∀ (out : Pal) (k : Field), out k ≠ none →
      List.foldl mergeStep out ds k = out k := by
  induction ds with
  | nil => intro out k _; rfl
  | cons d ds ih =>
    intro out k h
    have hstep := mergeStep_of_set out d k h
    calc List.foldl mergeStep out (d :: ds) k
        = List.foldl mergeStep (mergeStep out d) ds k := rfl
      _ = mergeStep out d k := ih _ k (by rw [hstep]; exact h)
      _ = out k := hstep

theorem foldl_mergeStep_of_none (ds : List Pal) :
    ∀ (out : Pal) (k : Field), out k = none →
      (∀ d ∈ ds, d k ≠ some []) →
      List.foldl mergeStep out ds k = firstSetField ds k := by
  induction ds with
  | nil =>
    intro out k h _
    simpa [firstSetField, List.findSome?] using h
  | cons d ds ih =>
    intro out k h hwf
    cases hd : d k with
    | none =>
      have hstep : mergeStep out d k = out k := by
        simp [mergeStep, hd, truthyOpt]
      rw [List.foldl_cons]
      have := ih (mergeStep out d) k (by rw [hstep]; exact h)
        (fun d' hd' => hwf d' (List.mem_cons_of_mem _ hd'))
      rw [this]
      simp [firstSetField, List.findSome?, hd]
    | some v =>
      have hv : v ≠ [] := by
        intro he
        exact hwf d (List.mem_cons_self d ds) (he ▸ hd)
      have hstep : mergeStep out d k = some v := by
        simp [mergeStep, h, hd, truthyOpt, hv]
      rw [List.foldl_cons]
      rw [foldl_mergeStep_of_set ds _ k (by rw [hstep]; simp)]
      rw [hstep]
      simp [firstSetField, List.findSome?, hd]

/-- **C1.** For `_merge_pref` over any list of source palettes in the
fixed precedence order: for each of the five fields, the merged value is
the value of the first source whose field is set — provided every set
field holds an actual (non-empty) color string, which is the spec's data
model (fields are normalized colors or unset; `_merge_pref` treats a
hypothetical empty string like unset).  In particular, with source A
defining only `background` and source B defining `background` and
`foreground`, the merge takes `background` from A and `foreground` from
B. -/
theorem merge_is_first_non_null_per_field :
    (∀ (ds : List Pal), (∀ d ∈ ds, ∀ k, d k ≠ some []) →
      ∀ k, mergePref ds k = firstSetField ds k) ∧
    (mergePref [srcA, srcB] Field.bg = srcA Field.bg ∧
     mergePref [srcA, srcB] Field.fg = srcB Field.fg) := by
  refine ⟨?_, ?_, ?_⟩
  · intro ds hwf k
    exact foldl_mergeStep_of_none ds emptyPalette k rfl (fun d hd => hwf d hd k)
  · decide
  · decide

/-- Witness for C1: the general part applied to the concrete two-source
list `[srcA, srcB]`, whose fields are all non-empty. -/
theorem merge_is_first_non_null_per_field_witness :
    mergePref [srcA, srcB] Field.fg = firstSetField [srcA, srcB] Field.fg :=
  merge_is_first_non_null_per_field.1 [srcA, srcB]
    (by
      intro d hd k
      have hd' : d = srcA ∨ d = srcB := by simpa using hd
      rcases hd' with h | h
      · subst h; cases k <;> simp [srcA, S]
      · subst h; cases k <;> simp [srcB, S])
    Field.fg

theorem foldl_onChanged_counts (events : List Nat) :
    ∀ (st : TimerState),
      (events.foldl (fun st t => onChanged t st) st).pending.length
          = st.pending.length + events.length ∧
      (events.foldl (fun st t => onChanged t st) st).applyRuns
          = st.applyRuns := by
  induction events with
  | nil => intro st; simp
  | cons t ts ih =>
    intro st
    rw [List.foldl_cons]
    refine ⟨?_, ?_⟩
    · rw [(ih (onChanged t st)).1]
      simp [onChanged]
      omega
    · rw [(ih (onChanged t st)).2]
      simp [onChanged]

/-- **C2.** Refuted as stated and established as the code behaves:
`ThemeWatcher._on_changed` (`theme.py` lines 545-547) calls
`GLib.timeout_add(150, …)` per event — it stores no timeout id and cancels
nothing, despite its own "debounce rapid bursts" comment.  A burst of two
change events at 0 ms and 10 ms (both inside the first 150 ms window)
produces two `apply_best_theme` runs, and in general a burst of N events
produces exactly N runs, not 1. -/
theorem burst_runs_apply_once_per_event :
    burstRuns [0, 10] = 2 ∧
    (∀ events : List Nat, burstRuns events = events.length) := by
  constructor
  · rfl
  · intro events
    have h := foldl_onChanged_counts events ⟨[], 0⟩
    simp only [burstRuns, runPending]
    rw [h.1, h.2]
    simp

/-- **C3.** Modelled from the spec (§4.8, §3, §5): the watcher stop
operation is `stop_theme_watcher` of `src/omnote/theme.py`, which is not
under `src/` — only its caller `src/omnote/app.py` is.  `start()` yields
the running state with the whole registration set; `stop()` transitions
running→stopped and tears down every monitor, the dark/light listener and
any pending debounce timer as one unit, so no partial registration state
survives and no further event is deliverable (hence none triggers a
re-application). -/
theorem watcher_stop_is_atomic_teardown :
    (∀ paths : List String, (startWatcher paths).running = true) ∧
    (∀ w : Watcher,
      (stopWatcher w).running = false ∧
      (stopWatcher w).monitors = [] ∧
      (stopWatcher w).styleListener = false ∧
      (stopWatcher w).pendingTimer = none ∧
      (∀ (e : WEvent) (now : Nat),
        onWatcherEvent (stopWatcher w) e now = (stopWatcher w, false))) := by
  refine ⟨fun _ => rfl, fun w => ⟨rfl, rfl, rfl, rfl, ?_⟩⟩
  intro e now
  cases e <;> simp [onWatcherEvent, deliverable, stopWatcher]

theorem installed_singleton_of_current (st : DisplayState) (i : Nat)
    (h : providersMatchCurrent st) (hc : st.current = some i) :
    ∃ s, st.installed = [(i, s)] := by
  unfold providersMatchCurrent at h
  rw [hc] at h
  cases hst : st.installed with
  | nil => rw [hst] at h; simp at h
  | cons x t =>
    rw [hst] at h
    simp at h
    obtain ⟨h1, h2⟩ := h
    exact ⟨x.2, by rw [h2, ← h1]⟩

theorem applyCss_clear (st : DisplayState) (h : providersMatchCurrent st) :
    (applyCss none none st).1 = ⟨[], none, st.nextId⟩ := by
  obtain ⟨ins, cur, nid⟩ := st
  cases hc : cur with
  | none =>
    have hins : ins = [] := by
      unfold providersMatchCurrent at h
      rw [hc] at h
      exact List.map_eq_nil_iff.mp h
    subst hc hins
    rfl
  | some i =>
    obtain ⟨s, hs⟩ := installed_singleton_of_current ⟨ins, cur, nid⟩ i h (by rw [hc])
    simp at hs
    subst hc hs
    simp [applyCss]

theorem applyCss_install_text (c : List Char) (st : DisplayState)
    (h : providersMatchCurrent st) :
    (applyCss (some c) none st).1 =
      ⟨[(st.nextId, .text c)], some st.nextId, st.nextId + 1⟩ := by
  cases hc : st.current with
  | none =>
    have hins : st.installed = [] := by
      unfold providersMatchCurrent at h
      rw [hc] at h
      exact List.map_eq_nil_iff.mp h
    simp [applyCss, hc, hins]
  | some i =>
    obtain ⟨s, hs⟩ := installed_singleton_of_current st i h hc
    simp [applyCss, hc, hs]

theorem applyCss_install_path (p : String) (st : DisplayState)
    (h : providersMatchCurrent st) :
    (applyCss none (some p) st).1 =
      ⟨[(st.nextId, .path p)], some st.nextId, st.nextId + 1⟩ := by
  cases hc : st.current with
  | none =>
    have hins : st.installed = [] := by
      unfold providersMatchCurrent at h
      rw [hc] at h
      exact List.map_eq_nil_iff.mp h
    simp [applyCss, hc, hins]
  | some i =>
    obtain ⟨s, hs⟩ := installed_singleton_of_current st i h hc
    simp [applyCss, hc, hs]

theorem pyJoinNL_cons_ne_nil (l : List Char) (t : List (List Char))
    (h : l ≠ []) : pyJoinNL (l :: t) ≠ [] := by
  cases t with
  | nil => simpa [pyJoinNL] using h
  | cons y ys => simp [pyJoinNL]

theorem cssFromPalette_ne_nil (pal : Pal) (dark : Bool) :
    cssFromPalette pal dark ≠ [] := by
  unfold cssFromPalette
  exact pyJoinNL_cons_ne_nil _ _ (by decide)

theorem applyBestTheme_nonsystem (I : ThemeInputs) (st : DisplayState)
    (hinv : providersMatchCurrent st)
    (hmode : pyLower I.themeMode ≠ S "system") :
    (applyBestTheme I st).1 =
      ⟨[(st.nextId, .text (cssFromPalette
          (mergePref [I.omarchyPal, I.alacrittyPal, I.envPal, fromGtkDefaults])
          I.isDark))],
        some st.nextId, st.nextId + 1⟩ := by
  unfold applyBestTheme
  rw [if_neg hmode]
  have htr : truthyOpt (some (cssFromPalette
      (mergePref [I.omarchyPal, I.alacrittyPal, I.envPal, fromGtkDefaults])
      I.isDark)) = true := by
    have := cssFromPalette_ne_nil
      (mergePref [I.omarchyPal, I.alacrittyPal, I.envPal, fromGtkDefaults])
      I.isDark
    simp [truthyOpt, this]
  simp only [htr, if_true]
  exact applyCss_install_text _ st hinv

/-- **C4.** `_apply_css` always removes the previously installed provider
before installing a new one, so the display's provider set always matches
`_CURRENT_PROVIDER` (at most one handle); and two consecutive
`apply_best_theme()` runs on unchanged inputs (not in `system` mode) each
leave exactly one provider installed, the second loaded from the same
stylesheet text as the first (fresh handle, equal content — no leak, no
double-install). -/
theorem apply_best_theme_idempotent_single_provider :
    (∀ (css : Option (List Char)) (path : Option String) (st : DisplayState),
      providersMatchCurrent st → providersMatchCurrent (applyCss css path st).1) ∧
    (∀ (I : ThemeInputs) (st : DisplayState),
      providersMatchCurrent st → pyLower I.themeMode ≠ S "system" →
      (applyBestTheme I st).1.installed.length = 1 ∧
      (applyBestTheme I ((applyBestTheme I st).1)).1.installed.length = 1 ∧
      (applyBestTheme I ((applyBestTheme I st).1)).1.installed.map Prod.snd =
        (applyBestTheme I st).1.installed.map Prod.snd ∧
      providersMatchCurrent (applyBestTheme I st).1 ∧
      providersMatchCurrent (applyBestTheme I ((applyBestTheme I st).1)).1) := by
  constructor
  · intro css path st h
    match css, path with
    | none, none =>
      rw [applyCss_clear st h]
      rfl
    | some c, path =>
      cases path with
      | none =>
        rw [applyCss_install_text c st h]
        rfl
      | some p =>
        rw [show (applyCss (some c) (some p) st).1 =
            ⟨[(st.nextId, .text c)], some st.nextId, st.nextId + 1⟩ from ?_]
        · rfl
        · cases hc : st.current with
          | none =>
            have hins : st.installed = [] := by
              unfold providersMatchCurrent at h
              rw [hc] at h
              exact List.map_eq_nil_iff.mp h
            simp [applyCss, hc, hins]
          | some i =>
            obtain ⟨s, hs⟩ := installed_singleton_of_current st i h hc
            simp [applyCss, hc, hs]
    | none, some p =>
      rw [applyCss_install_path p st h]
      rfl
  · intro I st hinv hmode
    have h1 := applyBestTheme_nonsystem I st hinv hmode
    have hinv1 : providersMatchCurrent (applyBestTheme I st).1 := by
      rw [h1]; rfl
    have h2 := applyBestTheme_nonsystem I ((applyBestTheme I st).1) hinv1 hmode
    refine ⟨by rw [h1]; rfl, by rw [h2]; rfl, ?_, hinv1, by rw [h2]; rfl⟩
    rw [h2, h1]
    rfl

/-- Witness for C4: two runs from the startup state on concrete
non-`system` inputs leave one provider each. -/
theorem apply_best_theme_idempotent_single_provider_witness :
    (applyBestTheme inputsDefault initialDisplay).1.installed.length = 1 ∧
    (applyBestTheme inputsDefault
      ((applyBestTheme inputsDefault initialDisplay).1)).1.installed.length = 1 :=
  have h := apply_best_theme_idempotent_single_provider.2 inputsDefault
    initialDisplay rfl (by decide)
  ⟨h.1, h.2.1⟩

theorem applyCss_clear_effects (st : DisplayState) :
    (applyCss none none st).2 = [] ∨
    (applyCss none none st).2 = [Effect.removedProvider] := by
  unfold applyCss
  cases st.current <;> simp

/-- **C9.** With `MICROPAD_THEME_MODE=system`, `apply_best_theme()`
short-circuits: the installed provider (if any) is removed and nothing
else happens — the provider state is cleared, the four palette sources are
never queried (no theme-source file is read, no palette computed) and no
new provider is installed. -/
theorem apply_best_theme_system_short_circuit :
    ∀ (I : ThemeInputs) (st : DisplayState),
      providersMatchCurrent st → pyLower I.themeMode = S "system" →
      (applyBestTheme I st).1 = ⟨[], none, st.nextId⟩ ∧
      Effect.queriedSources ∉ (applyBestTheme I st).2 ∧
      (∀ src, Effect.installedProvider src ∉ (applyBestTheme I st).2) := by
  intro I st hinv hmode
  have hb : applyBestTheme I st = applyCss none none st := by
    unfold applyBestTheme
    rw [if_pos hmode]
  rw [hb]
  refine ⟨applyCss_clear st hinv, ?_, ?_⟩
  · rcases applyCss_clear_effects st with h | h <;> simp [h]
  · intro src
    rcases applyCss_clear_effects st with h | h <;> simp [h]

/-- Witness for C9: the short-circuit at concrete `system` inputs from the
startup state. -/
theorem apply_best_theme_system_short_circuit_witness :
    (applyBestTheme inputsSystem initialDisplay).1 = ⟨[], none, 0⟩ ∧
    Effect.queriedSources ∉ (applyBestTheme inputsSystem initialDisplay).2 :=
  have h := apply_best_theme_system_short_circuit inputsSystem initialDisplay
    rfl (by decide)
  ⟨h.1, h.2.1⟩

theorem S_hash_eq : S "#" = ['#'] := rfl

theorem S_0x_eq : S "0x" = ['0', 'x'] := rfl

theorem S_rgb_eq : S "rgb:" = ['r', 'g', 'b', ':'] := rfl

theorem pySplitChar_of_not_mem (sep : Char) (s : List Char) (h : sep ∉ s) :
    pySplitChar sep s = [s] := by
  induction s with
  | nil => rfl
  | cons c t ih =>
    have hc : ¬c = sep := fun he => h (he ▸ List.mem_cons_self c t)
    have ht : sep ∉ t := fun hm => h (List.mem_cons_of_mem _ hm)
    simp [pySplitChar, hc, ih ht]

theorem pySplitChar_append_sep (sep : Char) (s t : List Char) (h : sep ∉ s) :
    pySplitChar sep (s ++ sep :: t) = s :: pySplitChar sep t := by
  induction s with
  | nil => simp [pySplitChar]
  | cons c u ih =>
    have hc : ¬c = sep := fun he => h (he ▸ List.mem_cons_self c u)
    have hu : sep ∉ u := fun hm => h (List.mem_cons_of_mem _ hm)
    simp [pySplitChar, hc, ih hu]

/-- **C5 counterexample.** The claim says `_norm_hex` returns null on
strings whose characters are not hex digits; but `"#zzzzzz"` (no hex
digits at all) is accepted unchanged — the function checks only prefix and
length, never the character class. -/
theorem norm_hex_accepts_non_hex_digits :
    normHex (some (S "#zzzzzz")) = some (S "#zzzzzz") ∧
    normHex (some (S "#zzzzzz")) ≠ none ∧
    isHexDigitCh 'z' = false := by
  refine ⟨by decide, by decide, by decide⟩

/-- **C5 (amended).** `_norm_hex` validates only the shape of its input
after stripping whitespace: `#` + 6 chars is returned unchanged, `#` + 8
chars has the last two (alpha) dropped, `0x` + 6 chars and
`rgb:XX/XX/XX` are rewritten to `#`-form — for arbitrary characters in
the payload positions, hex digits or not — and every input matching none
of the three shapes yields `None`; the function never throws. -/
theorem norm_hex_shape_characterization :
    (∀ h6 : List Char, h6.length = 6 → pyStrip ('#' :: h6) = '#' :: h6 →
      normHex (some ('#' :: h6)) = some ('#' :: h6)) ∧
    (∀ h8 : List Char, h8.length = 8 → pyStrip ('#' :: h8) = '#' :: h8 →
      normHex (some ('#' :: h8)) = some ('#' :: h8.take 6)) ∧
    (∀ h6 : List Char, h6.length = 6 →
      pyStrip ('0' :: 'x' :: h6) = '0' :: 'x' :: h6 →
      normHex (some ('0' :: 'x' :: h6)) = some ('#' :: h6)) ∧
    (∀ a b c : List Char, a.length = 2 → b.length = 2 → c.length = 2 →
      '/' ∉ a → '/' ∉ b → '/' ∉ c →
      pyStrip (S "rgb:" ++ (a ++ '/' :: (b ++ '/' :: c))) =
        S "rgb:" ++ (a ++ '/' :: (b ++ '/' :: c)) →
      normHex (some (S "rgb:" ++ (a ++ '/' :: (b ++ '/' :: c)))) =
        some ('#' :: (a ++ (b ++ c)))) ∧
    (∀ s : List Char,
      shapeHash (pyStrip s) = false → shape0x (pyStrip s) = false →
      shapeRgb (pyStrip s) = false → normHex (some s) = none) := by
  refine ⟨?_, ?_, ?_, ?_, ?_⟩
  · intro h6 hl hstrip
    have htake : h6.take 6 = h6 := List.take_of_length_le (le_of_eq hl)
    simp [normHex, normHexBody, hstrip, pyStartsWith, S_hash_eq,
      List.cons_prefix_cons, hl, htake]
  · intro h8 hl hstrip
    simp [normHex, normHexBody, hstrip, pyStartsWith, S_hash_eq,
      List.cons_prefix_cons, hl]
  · intro h6 hl hstrip
    simp [normHex, normHexBody, hstrip, pyStartsWith, S_hash_eq, S_0x_eq,
      List.cons_prefix_cons, hl]
  · intro a b c ha hb hc hna hnb hnc hstrip
    rw [S_rgb_eq] at hstrip
    simp only [List.cons_append, List.nil_append] at hstrip
    have hsplit : pySplitChar '/' (a ++ '/' :: (b ++ '/' :: c)) = [a, b, c] := by
      rw [pySplitChar_append_sep '/' a _ hna,
        pySplitChar_append_sep '/' b c hnb,
        pySplitChar_of_not_mem '/' c hnc]
    simp [normHex, normHexBody, hstrip, pyStartsWith, S_hash_eq, S_0x_eq,
      S_rgb_eq, List.cons_prefix_cons, hsplit, ha, hb, hc]
  · intro s h1 h2 h3
    unfold shapeHash at h1
    unfold shape0x at h2
    unfold shapeRgb at h3
    by_cases hs : s = []
    · simp [normHex, hs]
    · by_cases h0 : pyStrip s = []
      · simp [normHex, normHexBody, hs, h0]
      · simp only [normHex, normHexBody, if_neg hs, if_neg h0, h1, h2]
        simp only [Bool.false_eq_true, if_false]
        by_cases hr : pyStartsWith (S "rgb:") (pyStrip s) = true
        · rw [hr] at h3
          simp only [Bool.true_and] at h3
          simp [hr, h3]
        · simp [hr]

/-- Witness for C5: the shape characterization applied at a 6-hex-digit
input, a non-hex 0x-shaped input, and the rejected 3-digit CSS
shorthand. -/
theorem norm_hex_shape_characterization_witness :
    normHex (some ('#' :: S "A1b2C3")) = some ('#' :: S "A1b2C3") ∧
    normHex (some ('0' :: 'x' :: S "world!")) = some ('#' :: S "world!") ∧
    normHex (some (S "#abc")) = none :=
  ⟨norm_hex_shape_characterization.1 (S "A1b2C3") (by decide) (by decide),
   norm_hex_shape_characterization.2.2.1 (S "world!") (by decide) (by decide),
   norm_hex_shape_characterization.2.2.2.2 (S "#abc") (by decide) (by decide)
     (by decide)⟩

/-- **C6.** Refuted: `_parse_alacritty` is not total.  On the valid TOML
file `colors = 1` the deserializer yields `{"colors": 1}`; the `colors`
value is truthy, so `colors.get("primary")` on line 209 raises an
`AttributeError` that escapes to the caller (`apply_best_theme`), where
the claim requires a partial palette and no escaping exception.  (A failed
deserialization itself — e.g. wrong dialect — is caught and does return
`None`, second conjunct.) -/
theorem parse_alacritty_raises_on_non_mapping_colors :
    parseAlacrittyData (some (.dict [("colors", .int 1)])) =
      .error (S "AttributeError") ∧
    parseAlacrittyData none = .ok none :=
  ⟨rfl, rfl⟩

theorem bindOkInv {ε α β : Type} {x : Except ε α} {f : α → Except ε β}
    {r : β} (h : x >>= f = .ok r) : ∃ a, x = .ok a ∧ f a = .ok r := by
  match x, h with
  | .ok a, h => exact ⟨a, rfl, h⟩
  | .error e, h => exact Except.noConfusion h

theorem normHexBody_ne_nil (t : List Char) (v : List Char)
    (h : normHexBody t = some v) : v ≠ [] := by
  unfold normHexBody at h
  by_cases h0 : t = []
  · simp [h0] at h
  · rw [if_neg h0] at h
    by_cases h1 : (pyStartsWith (S "#") t && (t.length = 7 || t.length = 9)) = true
    · rw [if_pos h1] at h
      injection h with h'
      subst h'
      cases t with
      | nil => exact absurd rfl h0
      | cons c r => simp
    · rw [if_neg h1] at h
      by_cases h2 : (pyStartsWith (S "0x") t && t.length = 8) = true
      · rw [if_pos h2] at h
        injection h with h'
        subst h'
        simp
      · rw [if_neg h2] at h
        by_cases h3 : pyStartsWith (S "rgb:") t = true
        · rw [if_pos h3] at h
          dsimp only at h
          split at h
          · injection h with h'
            subst h'
            simp
          · exact absurd h (by simp)
        · rw [if_neg h3] at h
          exact absurd h (by simp)

theorem normHex_some_ne_nil (s : Option (List Char)) (v : List Char)
    (h : normHex s = some v) : v ≠ [] := by
  cases s with
  | none => exact absurd h (by simp [normHex])
  | some t =>
    simp only [normHex] at h
    by_cases h0 : t = []
    · rw [if_pos h0] at h
      exact absurd h (by simp)
    · rw [if_neg h0] at h
      exact normHexBody_ne_nil _ _ h

theorem mixColor_ne_nil (a b : PyVal) : mixColor a b ≠ [] := by
  unfold mixColor
  simp

theorem pyNormHexVal_ok_some_ne_nil (v : PyVal) (r : List Char)
    (h : pyNormHexVal v = .ok (some r)) : r ≠ [] := by
  unfold pyNormHexVal at h
  by_cases ht : pyTruthy v = true
  · rw [if_pos ht] at h
    cases v with
    | str s =>
      injection h with h'
      exact normHex_some_ne_nil _ _ h'
    | null => exact absurd h (by simp)
    | bool b => exact absurd h (by simp)
    | int n => exact absurd h (by simp)
    | list xs => exact absurd h (by simp)
    | dict kvs => exact absurd h (by simp)
  · rw [if_neg ht] at h
    injection h with h'
    exact absurd h' (by simp)

theorem pyNormHexVal_ok_none_of_truthy (v : PyVal)
    (h : pyNormHexVal v = .ok none) (ht : pyTruthy v = true) :
    ∃ s, v = .str s ∧ s ≠ [] := by
  unfold pyNormHexVal at h
  rw [if_pos ht] at h
  cases v with
  | str s =>
    refine ⟨s, rfl, ?_⟩
    simpa [pyTruthy] using ht
  | null => exact absurd h (by simp)
  | bool b => simp [pyTruthy] at ht; simp [ht] at h
  | int n => exact absurd h (by simp)
  | list xs => exact absurd h (by simp)
  | dict kvs => exact absurd h (by simp)

theorem pyTruthy_selBg (selBg0 a b : PyVal) :
    pyTruthy (if pyTruthy selBg0 then selBg0 else .str (mixColor a b)) = true := by
  by_cases h : pyTruthy selBg0 = true
  · simp [h]
  · simp only [Bool.not_eq_true] at h
    rw [if_neg (by simp [h])]
    simp only [pyTruthy, decide_eq_true_eq]
    exact mixColor_ne_nil a b

theorem pyTruthy_pyOrStr (v : PyVal) (d : List Char) (hd : d ≠ []) :
    pyTruthy (pyOrStr v d) = true := by
  unfold pyOrStr pyOr
  by_cases h : pyTruthy v = true
  · simp [h]
  · simp only [Bool.not_eq_true] at h
    rw [if_neg (by simp [h])]
    simp only [pyTruthy, decide_eq_true_eq]
    exact hd

theorem pyTruthy_fallback (w : PyVal) (v : PyVal) (d : List Char) (hd : d ≠ []) :
    pyTruthy (if pyTruthy w then w else pyOrStr v d) = true := by
  by_cases h : pyTruthy w = true
  · simp [h]
  · simp only [Bool.not_eq_true] at h
    rw [if_neg (by simp [h])]
    exact pyTruthy_pyOrStr v d hd

theorem parse_alacritty_pal_full (data : Option PyVal) (pal : Pal)
    (h : parseAlacrittyData data = .ok (some pal)) :
    ∀ k, ∃ v, pal k = some v ∧ v ≠ [] := by
  cases data with
  | none => exact absurd h (by simp [parseAlacrittyData])
  | some d =>
    cases d with
    | null => exact absurd h (by simp [parseAlacrittyData])
    | bool b => exact absurd h (by simp [parseAlacrittyData])
    | int n => exact absurd h (by simp [parseAlacrittyData])
    | str s => exact absurd h (by simp [parseAlacrittyData])
    | list xs => exact absurd h (by simp [parseAlacrittyData])
    | dict kvs =>
      unfold parseAlacrittyData at h
      obtain ⟨rawPrim, hRawPrim, h⟩ := bindOkInv h
      obtain ⟨rawNorm, hRawNorm, h⟩ := bindOkInv h
      obtain ⟨rawBright, hRawBright, h⟩ := bindOkInv h
      obtain ⟨rawSel, hRawSel, h⟩ := bindOkInv h
      obtain ⟨bg, hBg, h⟩ := bindOkInv h
      obtain ⟨fg, hFg, h⟩ := bindOkInv h
      obtain ⟨selBg0, hSelBg0, h⟩ := bindOkInv h
      obtain ⟨selT, hSelT, h⟩ := bindOkInv h
      obtain ⟨selFg0, hSelFg0, h⟩ := bindOkInv h
      obtain ⟨w1, hW1, h⟩ := bindOkInv h
      obtain ⟨w2, hW2, h⟩ := bindOkInv h
      obtain ⟨bgN, hBgN, h⟩ := bindOkInv h
      obtain ⟨fgN, hFgN, h⟩ := bindOkInv h
      obtain ⟨selBgN, hSelBgN, h⟩ := bindOkInv h
      obtain ⟨selFgN, hSelFgN, h⟩ := bindOkInv h
      obtain ⟨caretN, hCaretN, h⟩ := bindOkInv h
      simp only [pure, Except.pure, Except.ok.injEq, Option.some.injEq] at h
      subst h
      intro k
      cases k with
      | bg =>
        refine ⟨_, rfl, ?_⟩
        cases bgN with
        | none => decide
        | some r => simpa using pyNormHexVal_ok_some_ne_nil _ r hBgN
      | fg =>
        refine ⟨_, rfl, ?_⟩
        cases fgN with
        | none => decide
        | some r => simpa using pyNormHexVal_ok_some_ne_nil _ r hFgN
      | selBg =>
        refine ⟨_, rfl, ?_⟩
        cases selBgN with
        | some r => simpa using pyNormHexVal_ok_some_ne_nil _ r hSelBgN
        | none =>
          obtain ⟨s, hv, hs⟩ := pyNormHexVal_ok_none_of_truthy _ hSelBgN
            (pyTruthy_selBg selBg0 _ _)
          rw [hv]
          simpa [pyStrOf] using hs
      | selFg =>
        refine ⟨_, rfl, ?_⟩
        cases selFgN with
        | some r => simpa using pyNormHexVal_ok_some_ne_nil _ r hSelFgN
        | none =>
          obtain ⟨s, hv, hs⟩ := pyNormHexVal_ok_none_of_truthy _ hSelFgN
            (pyTruthy_fallback selFg0 fg _ (by decide))
          rw [hv]
          simpa [pyStrOf] using hs
      | caret =>
        refine ⟨_, rfl, ?_⟩
        cases caretN with
        | some r => simpa using pyNormHexVal_ok_some_ne_nil _ r hCaretN
        | none =>
          obtain ⟨s, hv, hs⟩ := pyNormHexVal_ok_none_of_truthy _ hCaretN
            (pyTruthy_fallback w2 fg _ (by decide))
          rw [hv]
          simpa [pyStrOf] using hs

theorem mergePref_cons_of_full (pal : Pal)
    (hfull : ∀ k, ∃ v, pal k = some v ∧ v ≠ []) :
    ∀ (rest : List Pal) (k : Field), mergePref (pal :: rest) k = pal k := by
  intro rest k
  obtain ⟨v, hv, hne⟩ := hfull k
  have hstep : mergeStep emptyPalette pal k = pal k := by
    simp [mergeStep, emptyPalette, truthyOpt, hv, hne]
  unfold mergePref
  rw [List.foldl_cons]
  rw [foldl_mergeStep_of_set rest _ k (by rw [hstep, hv]; simp)]
  exact hstep

theorem parse_alacritty_scenario :
    parseAlacrittyData (some alaScenarioTree) = .ok (some alaScenarioPal) := by
  have h : parseAlacrittyData (some alaScenarioTree) =
      .ok (some (fun k =>
        match k with
        | .bg => some (S "#101010")
        | .fg => some (S "#eeeeee")
        | .selBg => some (S "#313131")
        | .selFg => some (S "#eeeeee")
        | .caret => some (S "#eeeeee"))) := by rfl
  rw [h]
  have hp : (fun k =>
      match k with
      | Field.bg => some (S "#101010")
      | Field.fg => some (S "#eeeeee")
      | Field.selBg => some (S "#313131")
      | Field.selFg => some (S "#eeeeee")
      | Field.caret => some (S "#eeeeee")) = alaScenarioPal := by
    funext k
    cases k <;> rfl
  rw [hp]

/-- **C10.** Whenever `_parse_alacritty` returns a palette at all, every
one of its five fields is a set, non-empty string (background/foreground
defaulted, selection synthesized via `_mix_color`, caret falling back to
the foreground chain) — so in `_merge_pref` no lower-precedence source can
contribute any field once this parser's palette is first: merging it with
any list of further sources returns it unchanged.  On the spec's §8
scenario (`primary = #101010/#eeeeee`, no selection block) the parser
yields `selectionBackground = mix(#101010, #eeeeee, 0.15) = #313131` and
`selectionForeground = caret = #eeeeee`. -/
theorem parse_alacritty_always_full :
    (∀ (data : Option PyVal) (pal : Pal),
      parseAlacrittyData data = .ok (some pal) →
      (∀ k, ∃ v, pal k = some v ∧ v ≠ []) ∧
      (∀ (rest : List Pal) (k : Field), mergePref (pal :: rest) k = pal k)) ∧
    (parseAlacrittyData (some alaScenarioTree) = .ok (some alaScenarioPal) ∧
     alaScenarioPal .selBg =
       some (mixColor (.str (S "#101010")) (.str (S "#eeeeee"))) ∧
     alaScenarioPal .selBg = some (S "#313131") ∧
     alaScenarioPal .selFg = some (S "#eeeeee") ∧
     alaScenarioPal .caret = some (S "#eeeeee")) := by
  refine ⟨?_, parse_alacritty_scenario, by decide, by decide, by decide, by decide⟩
  intro data pal h
  have hfull := parse_alacritty_pal_full data pal h
  exact ⟨hfull, mergePref_cons_of_full pal hfull⟩

/-- Witness for C10: the general part applied to the concrete scenario
parse, whose hypothesis is discharged by the scenario evaluation. -/
theorem parse_alacritty_always_full_witness :
    (∀ k, ∃ v, alaScenarioPal k = some v ∧ v ≠ []) ∧
    (∀ (rest : List Pal) (k : Field),
      mergePref (alaScenarioPal :: rest) k = alaScenarioPal k) :=
  parse_alacritty_always_full.1 (some alaScenarioTree) alaScenarioPal
    parse_alacritty_scenario

theorem collectGo_zero (imp : String → List String)
    (fs : String → Option (List Char)) (p : String) (vis : List String) :
    collectGo imp fs 0 p vis = ([], vis) := rfl

theorem collectGo_succ (imp : String → List String)
    (fs : String → Option (List Char)) (n : Nat) (p : String)
    (vis : List String) :
    collectGo imp fs (n + 1) p vis =
      if vis.contains p || (fs p).isNone then ([], vis)
      else
        let vis1 := p :: vis
        let txt := (fs p).getD []
        if txt = [] then ([], vis1)
        else
          let sub := goList (collectGo imp fs n) (imp p) vis1
          (joinNE (sub.1 ++ [txt]), sub.2) := rfl

theorem goList_nodup (f : String → List String → List Char × List String)
    (hf : ∀ p vis, vis.Nodup → (f p vis).2.Nodup) :
    ∀ (ps : List String) (vis : List String), vis.Nodup →
      (goList f ps vis).2.Nodup := by
  intro ps
  induction ps with
  | nil => intro vis h; exact h
  | cons p ps ih =>
    intro vis h
    simp only [goList]
    exact ih _ (hf p vis h)

theorem collectGo_nodup (imp : String → List String)
    (fs : String → Option (List Char)) :
    ∀ (fuel : Nat) (p : String) (vis : List String), vis.Nodup →
      (collectGo imp fs fuel p vis).2.Nodup := by
  intro fuel
  induction fuel with
  | zero => intro p vis h; exact h
  | succ n ih =>
    intro p vis h
    rw [collectGo_succ]
    by_cases hc : (vis.contains p || (fs p).isNone) = true
    · rw [if_pos hc]; exact h
    · rw [if_neg hc]
      have hp : p ∉ vis := by
        intro hm
        apply hc
        simp [List.elem_eq_mem, hm]
      have h1 : (p :: vis).Nodup := List.nodup_cons.mpr ⟨hp, h⟩
      dsimp only
      split
      · exact h1
      · exact goList_nodup _ (fun q w hw => ih q w hw) (imp p) (p :: vis) h1

/-- **C7.** The import-chain aggregation is total (`collectGo` is defined
by recursion on the remaining depth budget, exactly the `depth >
max_depth` cut-off — termination needs no other argument), the visited set
stays duplicate-free (each absolute path is added, and hence its text
read, at most once per resolution), calls past the depth cap of 8 collect
nothing, and both a self-referencing file and a diamond graph terminate
with the shared file's text included exactly once. -/
theorem import_chain_visited_once_and_depth_capped :
    (∀ (imp : String → List String) (fs : String → Option (List Char))
        (fuel : Nat) (p : String) (vis : List String), vis.Nodup →
        (collectGo imp fs fuel p vis).2.Nodup) ∧
    (∀ (imp : String → List String) (fs : String → Option (List Char))
        (p : String) (vis : List String) (depth : Nat), depth > 8 →
        collectImportsText imp fs p vis depth 8 = ([], vis)) ∧
    collectImportsText loopImp loopFs "a" [] 0 8 = (S "x", ["a"]) ∧
    collectImportsText diamondImp diamondFs "r" [] 0 8 =
      (S "D\nB\nC\nR", ["c", "d", "b", "r"]) := by
  refine ⟨fun imp fs => collectGo_nodup imp fs, ?_, by decide, by decide⟩
  intro imp fs p vis depth hd
  unfold collectImportsText
  have hz : 8 + 1 - depth = 0 := by omega
  rw [hz]
  rfl

/-- Witness for C7: the duplicate-freedom part on the diamond run from an
empty visited set, and the depth cap at depth 9. -/
theorem import_chain_visited_once_and_depth_capped_witness :
    (collectGo diamondImp diamondFs 9 "r" []).2.Nodup ∧
    collectImportsText diamondImp diamondFs "r" [] 9 8 = ([], []) :=
  ⟨import_chain_visited_once_and_depth_capped.1 diamondImp diamondFs 9 "r" []
      (by decide),
   import_chain_visited_once_and_depth_capped.2.1 diamondImp diamondFs "r" []
      9 (by decide)⟩

/-- **C8.** The aggregator's output puts all imported files' collected
text first and the root file's own text last (for any graph: one unfolding
of the recursion at a readable, unvisited root); and since the regex
fallback returns the leftmost match, a `primary.background` defined in an
imported file wins over the root file's own definition: on the concrete
two-file chain the aggregate is `impText ++ "\n" ++ rootText` and
extraction yields the import's `#111111`, while the root alone would give
`#222222`. -/
theorem imports_precede_root_and_win :
    (∀ (imp : String → List String) (fs : String → Option (List Char))
        (fuel : Nat) (p : String) (vis : List String) (txt : List Char),
        vis.contains p = false → fs p = some txt → txt ≠ [] →
        collectGo imp fs (fuel + 1) p vis =
          (joinNE ((goList (collectGo imp fs fuel) (imp p) (p :: vis)).1
            ++ [txt]),
           (goList (collectGo imp fs fuel) (imp p) (p :: vis)).2)) ∧
    (collectImportsText chainImp chainFs "root" [] 0 8).1 =
      impText ++ '\n' :: rootText ∧
    blockKey "primary" "background"
      (collectImportsText chainImp chainFs "root" [] 0 8).1 =
      some (S "#111111") ∧
    blockKey "primary" "background" rootText = some (S "#222222") := by
  refine ⟨?_, by decide, by decide, by decide⟩
  intro imp fs fuel p vis txt hc hfs ht
  have hp : p ∉ vis := by simpa [List.contains, List.elem_eq_mem] using hc
  rw [collectGo_succ]
  rw [if_neg (by simp [hp, hfs])]
  simp only [hfs, Option.getD_some]
  rw [if_neg ht]

/-- Witness for C8: the ordering part applied to the concrete two-file
chain (root readable, not yet visited, non-empty). -/
theorem imports_precede_root_and_win_witness :
    collectGo chainImp chainFs 9 "root" [] =
      (joinNE ((goList (collectGo chainImp chainFs 8) (chainImp "root")
        ["root"]).1 ++ [rootText]),
       (goList (collectGo chainImp chainFs 8) (chainImp "root") ["root"]).2) :=
  imports_precede_root_and_win.1 chainImp chainFs 8 "root" [] rootText
    (by decide) (by decide) (by decide)

end ThemeSpec
